import Mathlib

/-!
Verification of the BEAMS behavior-tree configuration core
(`beams/tree_config.py`) and the worker lifecycle helper
(`beams/sequencer/helpers/Worker.py`).

External process-variable (PV) state is modelled as a map from PV name to
an optional integer value: `caget` returns `none` when the value is
unavailable.  Work routines run in a small state-plus-exception monad over
an EPICS environment; Python exceptions are modelled by `PyResult.exn`.
-/

/-- External PV state as observed by `caget`: `none` models an unavailable
(unreadable) value. -/
def PVals : Type := String → Option Int

/-- The `py_trees.common.Status` values exchanged with the tree engine. -/
inductive Status where
  | success
  | failure
  | running
  | invalid
deriving DecidableEq, Repr

/-- Result of running a Python expression: a value, or a raised exception
(carrying its message). -/
inductive PyResult (α : Type) where
  | ok (a : α)
  | exn (msg : String)
deriving Repr

/-- Predicate `PyResult.isOk r` holds exactly when `r` is a normal (non-exception)
result. -/
def PyResult.isOk {α : Type} : PyResult α → Bool
  | .ok _ => true
  | .exn _ => false

/-- Predicate `PyResult.isExn r` holds exactly when `r` is a raised exception. -/
def PyResult.isExn {α : Type} : PyResult α → Bool
  | .ok _ => false
  | .exn _ => true

/-- The `ConditionOperator` enum from `tree_config.py`. -/
inductive ConditionOperator where
  | equal
  | not_equal
  | less
  | greater
  | less_equal
  | greater_equal
deriving DecidableEq, Repr

/-- The comparison `getattr(operator, self.operator.value)` applied to two values:
the Python `operator` module's comparison for each enum member. -/
def ConditionOperator.apply : ConditionOperator → Int → Int → Bool
  | .equal, a, b => a == b
  | .not_equal, a, b => a != b
  | .less, a, b => decide (a < b)
  | .greater, a, b => decide (a > b)
  | .less_equal, a, b => decide (a ≤ b)
  | .greater_equal, a, b => decide (a ≥ b)

/-- The `ConditionItem` dataclass: a leaf comparison of a PV value against
a target value. -/
structure ConditionItem where
  name : String := ""
  description : String := ""
  pv : String := ""
  value : Int := 1
  operator : ConditionOperator := .equal
deriving DecidableEq, Repr

/-- Function `ConditionItem.get_condition_function`: read the PV with `caget`;
if the read returned `None`, the condition is false; otherwise compare
the read value with the configured value using the configured operator. -/
def ConditionItem.get_condition_function (c : ConditionItem) : PVals → Bool :=
  fun vals =>
    match vals c.pv with
    | none => false
    | some val => c.operator.apply val c.value

/-- The `RangeConditionItem` dataclass: shorthand for a two-sided bound on
one PV. -/
structure RangeConditionItem where
  name : String := ""
  description : String := ""
  memory : Bool := false
  pv : String := ""
  low_value : Int := 0
  high_value : Int := 1
deriving DecidableEq, Repr

/-- The lower-bound `ConditionItem` built by
`RangeConditionItem._generate_subconfig`. -/
def RangeConditionItem.lowItem (r : RangeConditionItem) : ConditionItem :=
  { name := r.name ++ "_lower_bound"
    description := "Lower bound for " ++ r.name ++ " check"
    pv := r.pv
    value := r.low_value
    operator := .greater_equal }

/-- The upper-bound `ConditionItem` built by
`RangeConditionItem._generate_subconfig`. -/
def RangeConditionItem.highItem (r : RangeConditionItem) : ConditionItem :=
  { name := r.name ++ "_upper_bound"
    description := "Upper bound for " ++ r.name ++ " check"
    pv := r.pv
    value := r.high_value
    operator := .less_equal }

/-- The `UseCheckConditionItem` dataclass: sentinel meaning "use the
sibling check as the termination check". -/
structure UseCheckConditionItem where
  name : String := ""
  description : String := ""
  copy_from : String := "previous check"
deriving DecidableEq, Repr

/-- The `AnyConditionItem` union from `tree_config.py`:
`Union[ConditionItem, SequenceConditionItem, RangeConditionItem,
UseCheckConditionItem]`.  The `SequenceConditionItem` dataclass fields are
inlined in the `sequence` constructor. -/
inductive AnyConditionItem where
  | condition (c : ConditionItem)
  | sequence (name : String) (description : String) (memory : Bool)
      (children : List AnyConditionItem)
  | range (r : RangeConditionItem)
  | useCheck (u : UseCheckConditionItem)
deriving Repr

/-- The `name` attribute, present on every member of the union. -/
def AnyConditionItem.name : AnyConditionItem → String
  | .condition c => c.name
  | .sequence n _ _ _ => n
  | .range r => r.name
  | .useCheck u => u.name

/-- The `pv` attribute access: present on `ConditionItem` and
`RangeConditionItem`; on the other members it raises `AttributeError`,
modelled as `none`. -/
def AnyConditionItem.pvAttr : AnyConditionItem → Option String
  | .condition c => some c.pv
  | .sequence _ _ _ _ => none
  | .range r => some r.pv
  | .useCheck _ => none

/-- The test `isinstance(x, UseCheckConditionItem)`. -/
def AnyConditionItem.isUseCheck : AnyConditionItem → Bool
  | .useCheck _ => true
  | _ => false

/-- The loop inside `SequenceConditionItem.get_condition_function`'s
`cond_func` closure: walk the child condition functions in declared order,
stop at the first one returning false. -/
def SequenceConditionItem.cond_func (child_funcs : List (PVals → Bool)) :
    PVals → Bool :=
  fun vals =>
    match child_funcs with
    | [] => true
    | cf :: rest =>
      if cf vals then SequenceConditionItem.cond_func rest vals else false

/-- Instrumented run of the sequence-condition loop, starting child
numbering at `i`: returns the result together with the indices of the
children that were actually evaluated, in call order. -/
def seqCondTraceFrom (i : Nat) (child_funcs : List (PVals → Bool))
    (vals : PVals) : Bool × List Nat :=
  match child_funcs with
  | [] => (true, [])
  | cf :: rest =>
    if cf vals then
      let p := seqCondTraceFrom (i + 1) rest vals
      (p.1, i :: p.2)
    else
      (false, [i])

/-- Instrumented run of the sequence-condition loop: result plus the
indices (from 0, in call order) of the evaluated children. -/
def seqCondTrace (child_funcs : List (PVals → Bool)) (vals : PVals) :
    Bool × List Nat :=
  seqCondTraceFrom 0 child_funcs vals

mutual
/-- Method `get_condition_function` over the union: it exists on `ConditionItem`,
`SequenceConditionItem` and `RangeConditionItem`; calling it on
`UseCheckConditionItem` raises `AttributeError` (`none`).  The range case
follows `RangeConditionItem._generate_subconfig`: a sequence of the two
bound items. -/
def AnyConditionItem.get_condition_function :
    AnyConditionItem → Option (PVals → Bool)
  | .condition c => some c.get_condition_function
  | .sequence _ _ _ children =>
    (condFuncsOfChildren children).map SequenceConditionItem.cond_func
  | .range r => some (SequenceConditionItem.cond_func
      [r.lowItem.get_condition_function, r.highItem.get_condition_function])
  | .useCheck _ => none

/-- The list comprehension `[item.get_condition_function() for item in
self.children]`: any child on which the call raises propagates the
exception (`none`). -/
def condFuncsOfChildren :
    List AnyConditionItem → Option (List (PVals → Bool))
  | [] => some []
  | item :: rest =>
    match item.get_condition_function, condFuncsOfChildren rest with
    | some f, some fs => some (f :: fs)
    | _, _ => none
end

/-- Method `RangeConditionItem._generate_subconfig`: the generated
`SequenceConditionItem` whose children are the two bound items. -/
def RangeConditionItem.generate_subconfig (r : RangeConditionItem) :
    AnyConditionItem :=
  .sequence r.name r.description r.memory
    [.condition r.lowItem, .condition r.highItem]

/-- Live condition-side tree nodes produced by `get_tree`: a
`ConditionNode` wrapping a condition function, or a `py_trees` `Sequence`
of children. -/
inductive CondTreeNode where
  | conditionNode (name : String) (cond_func : PVals → Bool)
  | sequenceNode (name : String) (memory : Bool)
      (children : List CondTreeNode)

mutual
/-- Method `get_tree` over the condition union.  `ConditionItem.get_tree` builds
a `ConditionNode` from the condition function; sequences build a
`Sequence` of the children's trees (`get_sequence_tree`); a range builds
its generated subconfig's tree; `UseCheckConditionItem` has no `get_tree`
override, so the call raises `NotImplementedError` (`none`). -/
def AnyConditionItem.get_tree : AnyConditionItem → Option CondTreeNode
  | .condition c =>
    some (.conditionNode c.name c.get_condition_function)
  | .sequence n _ m children =>
    (treesOfChildren children).map (CondTreeNode.sequenceNode n m)
  | .range r =>
    some (.sequenceNode r.name r.memory
      [.conditionNode r.lowItem.name r.lowItem.get_condition_function,
       .conditionNode r.highItem.name r.highItem.get_condition_function])
  | .useCheck _ => none

/-- The loop in `get_sequence_tree` collecting `child.get_tree()` for each
child; an exception in any child propagates (`none`). -/
def treesOfChildren : List AnyConditionItem → Option (List CondTreeNode)
  | [] => some []
  | item :: rest =>
    match item.get_tree, treesOfChildren rest with
    | some t, some ts => some (t :: ts)
    | _, _ => none
end

/-- The EPICS-facing environment a work routine runs in: current PV
values, the set of PVs on which `caput` raises, and the log of `sleep`
calls (each entry one sleep duration, in seconds). -/
structure EpicsEnv where
  vals : PVals
  putFails : String → Bool
  slept : List Rat

/-- The PV map after a successful `caput(pv, v)`. -/
def caputVals (vals : PVals) (pv : String) (v : Int) : PVals :=
  fun p => if p = pv then some v else vals p

/-- The `SetPVActionItem` dataclass. -/
structure SetPVActionItem where
  name : String := ""
  description : String := ""
  pv : String := ""
  value : Int := 1
  loop_period_sec : Rat := 1
  termination_check : AnyConditionItem := .condition {}

/-- The `IncPVActionItem` dataclass. -/
structure IncPVActionItem where
  name : String := ""
  description : String := ""
  pv : String := ""
  increment : Int := 1
  loop_period_sec : Rat := 1
  termination_check : AnyConditionItem := .condition {}

/-- Body of `SetPVActionItem.get_tree.work_func` (the code inside the
`try`): read `caget(self.termination_check.pv)` (an `AttributeError` if
the termination check has no `pv`); if the completion condition holds,
return SUCCESS; otherwise `caput(self.pv, self.value)` (raising if the
write fails), sleep `loop_period_sec`, and return RUNNING. -/
def SetPVActionItem.work_body (item : SetPVActionItem)
    (comp_condition : PVals → Bool) (env : EpicsEnv) :
    PyResult Status × EpicsEnv :=
  match item.termination_check.pvAttr with
  | none => (.exn "AttributeError: no attribute pv", env)
  | some tpv =>
    let _value := env.vals tpv
    if comp_condition env.vals then
      (.ok .success, env)
    else if env.putFails item.pv then
      (.exn "caput failed", env)
    else
      (.ok .running,
        { env with
          vals := caputVals env.vals item.pv item.value
          slept := env.slept ++ [item.loop_period_sec] })

/-- Body of `IncPVActionItem.get_tree.work_func` (the code inside the
`try`): read `caget(self.pv)`; if the completion condition holds, return
SUCCESS; otherwise compute `value + self.increment` (a `TypeError` when
the read returned `None`), `caput` it (raising if the write fails), sleep,
and return RUNNING. -/
def IncPVActionItem.work_body (item : IncPVActionItem)
    (comp_condition : PVals → Bool) (env : EpicsEnv) :
    PyResult Status × EpicsEnv :=
  let value := env.vals item.pv
  if comp_condition env.vals then
    (.ok .success, env)
  else
    match value with
    | none => (.exn "TypeError: NoneType + int", env)
    | some v =>
      if env.putFails item.pv then
        (.exn "caput failed", env)
      else
        (.ok .running,
          { env with
            vals := caputVals env.vals item.pv (v + item.increment)
            slept := env.slept ++ [item.loop_period_sec] })

/-- The `try ... except Exception: return Status.FAILURE` wrapper shared
by both work routines: an exception raised by the body is caught, logged,
and mapped to a FAILURE return value. -/
def tryStatus (body : EpicsEnv → PyResult Status × EpicsEnv)
    (env : EpicsEnv) : PyResult Status × EpicsEnv :=
  match body env with
  | (.ok s, e) => (.ok s, e)
  | (.exn _, e) => (.ok .failure, e)

/-- Function `SetPVActionItem.get_tree.work_func`: the body wrapped in the
`try`/`except` boundary. -/
def SetPVActionItem.work_func (item : SetPVActionItem)
    (comp_condition : PVals → Bool) : EpicsEnv → PyResult Status × EpicsEnv :=
  tryStatus (item.work_body comp_condition)

/-- Function `IncPVActionItem.get_tree.work_func`: the body wrapped in the
`try`/`except` boundary. -/
def IncPVActionItem.work_func (item : IncPVActionItem)
    (comp_condition : PVals → Bool) : EpicsEnv → PyResult Status × EpicsEnv :=
  tryStatus (item.work_body comp_condition)

/-- The `ActionNode` behaviour as constructed by the action items'
`get_tree`: name, work routine, and completion condition. -/
structure ActionNode where
  name : String
  work_func : (PVals → Bool) → EpicsEnv → PyResult Status × EpicsEnv
  completion_condition : PVals → Bool

/-- The `Union[SetPVActionItem, IncPVActionItem]` type of the `do` field
of `CheckAndDoItem`. -/
inductive DoItem where
  | set (i : SetPVActionItem)
  | inc (i : IncPVActionItem)

/-- The `termination_check` attribute of either action item. -/
def DoItem.termination_check : DoItem → AnyConditionItem
  | .set i => i.termination_check
  | .inc i => i.termination_check

/-- Assignment `x.termination_check = t` on either action item. -/
def DoItem.withTerminationCheck : DoItem → AnyConditionItem → DoItem
  | .set i, t => .set { i with termination_check := t }
  | .inc i, t => .inc { i with termination_check := t }

/-- Methods `SetPVActionItem.get_tree` and `IncPVActionItem.get_tree`: compute
`comp_cond = self.termination_check.get_condition_function()` (raising if
the termination check has none) and build the `ActionNode`. -/
def DoItem.get_tree : DoItem → Option ActionNode
  | .set i =>
    (i.termination_check.get_condition_function).map fun comp_cond =>
      { name := i.name
        work_func := i.work_func
        completion_condition := comp_cond }
  | .inc i =>
    (i.termination_check.get_condition_function).map fun comp_cond =>
      { name := i.name
        work_func := i.work_func
        completion_condition := comp_cond }

/-- The `name` attribute of either action item. -/
def DoItem.itemName : DoItem → String
  | .set i => i.name
  | .inc i => i.name

/-- The live `CheckAndDo` behaviour: a check subtree and a do
`ActionNode` (field `do` in the source; `do` is reserved in Lean). -/
structure CheckAndDo where
  name : String
  check : CondTreeNode
  do_node : ActionNode

/-- The `CheckAndDoItem` dataclass.  Python objects are references, so the
`do` field is modelled as an index (`doRef`) into an explicit heap of
`DoItem` values; `copy(self.do)` allocates a fresh heap entry. -/
structure CheckAndDoItem where
  name : String := ""
  description : String := ""
  check : AnyConditionItem := .condition {}
  doRef : Nat := 0

/-- Default used for (impossible in Python) dangling heap reads. -/
def defaultDoItem : DoItem := .set {}

/-- Constructing a `CheckAndDoItem`: the dataclass `__init__` binds the
fields, then `__post_init__` runs: if `self.do.termination_check.name` is
empty (falsy), assign `self.do.termination_check =
UseCheckConditionItem()` — a mutation of the caller's `do` object through
the shared reference.  Returns the new item and the updated heap. -/
def constructCheckAndDo (nm descr : String) (check : AnyConditionItem)
    (doRef : Nat) (heap : List DoItem) : CheckAndDoItem × List DoItem :=
  let d := heap.getD doRef defaultDoItem
  let heap1 :=
    if d.termination_check.name = "" then
      heap.set doRef (d.withTerminationCheck (.useCheck {}))
    else
      heap
  ({ name := nm, description := descr, check := check, doRef := doRef },
    heap1)

/-- The node construction at the end of `CheckAndDoItem.get_tree`:
`check_node = self.check.get_tree()`, `do_node = active_do.get_tree()`,
then `CheckAndDo(name, check=check_node, do=do_node)`; an exception in
either `get_tree` propagates (`none`). -/
def buildCheckAndDo (nm : String) (check : AnyConditionItem)
    (active_do : DoItem) : Option CheckAndDo :=
  match check.get_tree, active_do.get_tree with
  | some check_node, some do_node =>
    some { name := nm, check := check_node, do_node := do_node }
  | _, _ => none

/-- Method `CheckAndDoItem.get_tree`: if the `do`'s termination check is the
`UseCheckConditionItem` sentinel, take `active_do = copy(self.do)` (a
fresh object — a new heap entry) and assign
`active_do.termination_check = self.check` on that copy; otherwise
`active_do = self.do`.  Then build the `CheckAndDo` node.  Returns the
heap after the call together with the node. -/
def CheckAndDoItem.get_tree (item : CheckAndDoItem) (heap : List DoItem) :
    List DoItem × Option CheckAndDo :=
  let d := heap.getD item.doRef defaultDoItem
  if d.termination_check.isUseCheck then
    let active_do := d.withTerminationCheck item.check
    (heap ++ [active_do], buildCheckAndDo item.name item.check active_do)
  else
    (heap, buildCheckAndDo item.name item.check d)

/-- The heap after calling `item.get_tree` `n` times in a row. -/
def CheckAndDoItem.iterGetTree (item : CheckAndDoItem) :
    Nat → List DoItem → List DoItem
  | 0, heap => heap
  | n + 1, heap => item.iterGetTree n (item.get_tree heap).1

/-- Spec-side definition, following the spec's words for a range: "a
conjunction of [value ≥ low] and [value ≤ high] over the same external
key", each conjunct a leaf comparison (read by key; unreadable reads are
false; else compare). -/
def specRangeCondition (pv : String) (low high : Int) (vals : PVals) :
    Bool :=
  (match vals pv with
   | none => false
   | some v => decide (low ≤ v)) &&
  (match vals pv with
   | none => false
   | some v => decide (v ≤ high))

/-- Observable events of the `Worker` lifecycle: flag writes, process
start/terminate/join, the optional cleanup callback, and error-level
diagnostics. -/
inductive WorkerEvent where
  | set_flag (b : Bool)
  | start_proc
  | terminate_proc
  | run_stop_func
  | join_proc
  | log_error
deriving DecidableEq, Repr

/-- Controller-side state of a `Worker` (`Worker.py`): the shared
`do_work` flag, whether the underlying process was ever started, whether
a live (started, not yet joined) worker exists, and whether a `stop_func`
cleanup callback was configured. -/
structure WorkerState where
  do_work : Bool
  proc_started : Bool
  proc_alive : Bool
  has_stop_func : Bool
deriving DecidableEq, Repr

/-- Constructor `Worker.__init__`: the shared flag starts false and no process has
been started. -/
def Worker.init (has_stop_func : Bool) : WorkerState :=
  { do_work := false
    proc_started := false
    proc_alive := false
    has_stop_func := has_stop_func }

/-- Method `Worker.start_work`: if the flag is already true, log an error and
return without starting anything; otherwise set the flag true and start
the worker process. -/
def Worker.start_work (w : WorkerState) : WorkerState × List WorkerEvent :=
  if w.do_work then
    (w, [.log_error])
  else
    ({ w with do_work := true, proc_started := true, proc_alive := true },
      [.set_flag true, .start_proc])

/-- Method `Worker.stop_work`: if the flag is false, log an error and return
without doing anything; otherwise set the flag false, terminate the
worker process, run `stop_func` if one was configured, then join. -/
def Worker.stop_work (w : WorkerState) : WorkerState × List WorkerEvent :=
  if !w.do_work then
    (w, [.log_error])
  else
    ({ w with do_work := false, proc_alive := false },
      [.set_flag false, .terminate_proc] ++
        (if w.has_stop_func then [.run_stop_func] else []) ++
        [.join_proc])

/-- The sequence-condition loop computes the conjunction of its child
condition functions. -/
lemma cond_func_eq_all (fs : List (PVals → Bool)) (vals : PVals) :
    SequenceConditionItem.cond_func fs vals = fs.all (fun f => f vals) := by
  induction fs with
  | nil => rfl
  | cons f rest ih =>
    by_cases h : f vals <;>
      simp [SequenceConditionItem.cond_func, List.all_cons, h, ih]

/-- The instrumented loop returns the same boolean as the uninstrumented
condition function. -/
lemma seqCondTraceFrom_fst (fs : List (PVals → Bool)) (vals : PVals) :
    ∀ i, (seqCondTraceFrom i fs vals).1 =
      SequenceConditionItem.cond_func fs vals := by
  induction fs with
  | nil => intro i; rfl
  | cons f rest ih =>
    intro i
    by_cases h : f vals <;>
      simp [seqCondTraceFrom, SequenceConditionItem.cond_func, h, ih]

/-- Number of children evaluated by one run of the sequence-condition
loop: all leading true children, plus the first false child if any. -/
def seqEvalCount (fs : List (PVals → Bool)) (vals : PVals) : Nat :=
  (fs.takeWhile (fun f => f vals)).length +
    (if fs.all (fun f => f vals) then 0 else 1)

/-- The instrumented loop starting at index `i` evaluates exactly the
children with indices `i, i+1, ...`, as many as `seqEvalCount` says. -/
lemma seqCondTraceFrom_snd (fs : List (PVals → Bool)) (vals : PVals) :
    ∀ i, (seqCondTraceFrom i fs vals).2 =
      List.range' i (seqEvalCount fs vals) := by
  induction fs with
  | nil => intro i; simp [seqCondTraceFrom, seqEvalCount]
  | cons f rest ih =>
    intro i
    by_cases h : f vals
    · have hcount : seqEvalCount (f :: rest) vals =
          seqEvalCount rest vals + 1 := by
        simp only [seqEvalCount, List.takeWhile_cons, List.all_cons, h,
          if_true, true_and, List.length_cons]
        exact Nat.add_right_comm _ 1 _
      rw [hcount, List.range'_succ i (seqEvalCount rest vals) 1]
      simp [seqCondTraceFrom, h, ih]
    · have hcount : seqEvalCount (f :: rest) vals = 1 := by
        simp [seqEvalCount, List.takeWhile_cons, List.all_cons, h]
      rw [hcount, List.range'_one]
      simp [seqCondTraceFrom, h]

/-- C3.  For every conjunction condition (`SequenceConditionItem`) and
every list of child condition functions: the children are evaluated in
declared index order starting at child 0; the conjunction is exactly the
conjunction of all children (true only if every child is true, false as
soon as some child is false); the children actually evaluated are exactly
the leading true children plus the first false one — no child after the
first false child is evaluated; and the empty child list evaluates to
true. -/
theorem sequence_condition_short_circuit
    (fs : List (PVals → Bool)) (vals : PVals) :
    SequenceConditionItem.cond_func fs vals = fs.all (fun f => f vals)
  ∧ (seqCondTrace fs vals).1 = SequenceConditionItem.cond_func fs vals
  ∧ (seqCondTrace fs vals).2 = List.range (seqEvalCount fs vals)
  ∧ seqEvalCount fs vals =
      (fs.takeWhile (fun f => f vals)).length +
        (if fs.all (fun f => f vals) then 0 else 1)
  ∧ SequenceConditionItem.cond_func [] vals = true := by
  refine ⟨cond_func_eq_all fs vals, seqCondTraceFrom_fst fs vals 0, ?_,
    rfl, rfl⟩
  rw [seqCondTrace, seqCondTraceFrom_snd fs vals 0, List.range_eq_range']

/-- C4.  A leaf `ConditionItem`'s condition function reads the configured
PV: an unavailable read yields false, otherwise the configured comparison
operator is applied to the read value and the configured target value —
and each operator is the corresponding order/equality comparison. -/
theorem condition_item_leaf_eval (c : ConditionItem) (vals : PVals) :
    (vals c.pv = none → c.get_condition_function vals = false)
  ∧ (∀ v : Int, vals c.pv = some v →
      c.get_condition_function vals = c.operator.apply v c.value)
  ∧ (∀ a b : Int,
      ConditionOperator.apply .equal a b = decide (a = b)
    ∧ ConditionOperator.apply .not_equal a b = decide (a ≠ b)
    ∧ ConditionOperator.apply .less a b = decide (a < b)
    ∧ ConditionOperator.apply .greater a b = decide (b < a)
    ∧ ConditionOperator.apply .less_equal a b = decide (a ≤ b)
    ∧ ConditionOperator.apply .greater_equal a b = decide (b ≤ a)) := by
  refine ⟨fun h => ?_, fun v h => ?_, fun a b => ?_⟩
  · simp [ConditionItem.get_condition_function, h]
  · simp [ConditionItem.get_condition_function, h]
  · refine ⟨?_, ?_, rfl, rfl, rfl, rfl⟩
    · by_cases h : a = b <;> simp [ConditionOperator.apply, h]
    · by_cases h : a = b <;> simp [ConditionOperator.apply, h]

/-- Concrete leaf item used by the C4 witness. -/
def witnessCondItem : ConditionItem :=
  { name := "lt", pv := "a", value := 3, operator := .less }

/-- Concrete readable PV state used by the C4 witness. -/
def witnessValsSome : PVals := fun p => if p = "a" then some 2 else none

/-- Concrete unreadable PV state used by witnesses. -/
def witnessValsNone : PVals := fun _ => none

/-- Witness for C4 at a concrete item and concrete PV states. -/
theorem condition_item_leaf_eval_witness :
    witnessCondItem.get_condition_function witnessValsSome =
      ConditionOperator.apply witnessCondItem.operator 2 witnessCondItem.value
  ∧ witnessCondItem.get_condition_function witnessValsNone = false :=
  ⟨(condition_item_leaf_eval witnessCondItem witnessValsSome).2.1 2 rfl,
   (condition_item_leaf_eval witnessCondItem witnessValsNone).1 rfl⟩

/-- C8.  A `RangeConditionItem`'s condition function (built through
`_generate_subconfig`) produces, on every PV state, the same result as
the conjunction of the two leaf comparisons `value ≥ low` and
`value ≤ high` over the same external key, as the spec words it. -/
theorem range_condition_equiv_conjunction (r : RangeConditionItem) :
    (r.generate_subconfig).get_condition_function =
      (AnyConditionItem.range r).get_condition_function
  ∧ ∃ f, (AnyConditionItem.range r).get_condition_function = some f
      ∧ ∀ vals, f vals =
          specRangeCondition r.pv r.low_value r.high_value vals := by
  refine ⟨rfl, _, rfl, fun vals => ?_⟩
  cases hv : vals r.pv with
  | none =>
    simp [SequenceConditionItem.cond_func, ConditionItem.get_condition_function,
      RangeConditionItem.lowItem, RangeConditionItem.highItem,
      specRangeCondition, hv]
  | some v =>
    simp only [SequenceConditionItem.cond_func,
      ConditionItem.get_condition_function, RangeConditionItem.lowItem,
      RangeConditionItem.highItem, ConditionOperator.apply,
      specRangeCondition, hv, ge_iff_le]
    by_cases h1 : r.low_value ≤ v <;> by_cases h2 : v ≤ r.high_value <;>
      simp [h1, h2]

/-- C5.  Both work routines catch any exception raised inside one
invocation: the wrapped routine never lets an exception escape (its
result is always a normal status), and whenever the body raises, the
routine returns FAILURE. -/
theorem work_func_exception_boundary (si : SetPVActionItem)
    (ii : IncPVActionItem) (comp : PVals → Bool) (env : EpicsEnv) :
    (si.work_func comp env).1.isOk = true
  ∧ (ii.work_func comp env).1.isOk = true
  ∧ ((si.work_body comp env).1.isExn = true →
      (si.work_func comp env).1 = .ok .failure)
  ∧ ((ii.work_body comp env).1.isExn = true →
      (ii.work_func comp env).1 = .ok .failure) := by
  refine ⟨?_, ?_, ?_, ?_⟩
  · rw [SetPVActionItem.work_func, tryStatus]
    rcases hb : si.work_body comp env with ⟨r, e⟩
    cases r <;> simp [PyResult.isOk]
  · rw [IncPVActionItem.work_func, tryStatus]
    rcases hb : ii.work_body comp env with ⟨r, e⟩
    cases r <;> simp [PyResult.isOk]
  · intro h
    rw [SetPVActionItem.work_func, tryStatus]
    rcases hb : si.work_body comp env with ⟨r, e⟩
    cases r with
    | ok s => rw [hb] at h; simp [PyResult.isExn] at h
    | exn m => simp
  · intro h
    rw [IncPVActionItem.work_func, tryStatus]
    rcases hb : ii.work_body comp env with ⟨r, e⟩
    cases r with
    | ok s => rw [hb] at h; simp [PyResult.isExn] at h
    | exn m => simp

/-- Concrete Set action item used by witnesses: writes 5 to PV "x"; its
termination check is the default (unnamed) `ConditionItem`. -/
def witnessSetItem : SetPVActionItem := { pv := "x", value := 5 }

/-- Concrete Inc action item used by witnesses: increments PV "x" by 1. -/
def witnessIncItem : IncPVActionItem := { pv := "x" }

/-- Concrete completion condition that never holds. -/
def witnessCompFalse : PVals → Bool := fun _ => false

/-- Concrete completion condition that always holds. -/
def witnessCompTrue : PVals → Bool := fun _ => true

/-- Environment in which every PV reads 0 and every `caput` raises. -/
def witnessEnvPutFails : EpicsEnv :=
  { vals := fun _ => some 0, putFails := fun _ => true, slept := [] }

/-- Environment in which every PV reads 0 and writes succeed. -/
def witnessEnvOk : EpicsEnv :=
  { vals := fun _ => some 0, putFails := fun _ => false, slept := [] }

/-- Environment in which every PV is unreadable and writes succeed. -/
def witnessEnvUnreadable : EpicsEnv :=
  { vals := fun _ => none, putFails := fun _ => false, slept := [] }

/-- Witness for C5: in an environment where the write raises and the
completion condition is false, both bodies raise, and both wrapped work
routines return FAILURE. -/
theorem work_func_exception_boundary_witness :
    (witnessSetItem.work_body witnessCompFalse witnessEnvPutFails).1.isExn
      = true
  ∧ (witnessIncItem.work_body witnessCompFalse witnessEnvPutFails).1.isExn
      = true
  ∧ (witnessSetItem.work_func witnessCompFalse witnessEnvPutFails).1
      = .ok .failure
  ∧ (witnessIncItem.work_func witnessCompFalse witnessEnvPutFails).1
      = .ok .failure :=
  ⟨rfl, rfl,
   (work_func_exception_boundary witnessSetItem witnessIncItem
     witnessCompFalse witnessEnvPutFails).2.2.1 rfl,
   (work_func_exception_boundary witnessSetItem witnessIncItem
     witnessCompFalse witnessEnvPutFails).2.2.2 rfl⟩

/-- C9.  One invocation of the Set-policy work routine, when the
termination check exposes a PV to read and the write would not fail:
if the completion condition holds it returns SUCCESS with the
environment untouched (no write, no sleep); otherwise it writes the fixed
configured value to the configured PV, sleeps the configured loop period,
and returns RUNNING. -/
theorem set_work_one_invocation (item : SetPVActionItem)
    (comp : PVals → Bool) (env : EpicsEnv) (tpv : String)
    (hpv : item.termination_check.pvAttr = some tpv)
    (hput : env.putFails item.pv = false) :
    (comp env.vals = true → item.work_func comp env = (.ok .success, env))
  ∧ (comp env.vals = false → item.work_func comp env =
      (.ok .running,
        { env with
          vals := caputVals env.vals item.pv item.value
          slept := env.slept ++ [item.loop_period_sec] })) := by
  constructor
  · intro hc
    rw [SetPVActionItem.work_func, tryStatus, SetPVActionItem.work_body,
      hpv]
    simp [hc]
  · intro hc
    rw [SetPVActionItem.work_func, tryStatus, SetPVActionItem.work_body,
      hpv]
    simp [hc, hput]

/-- Witness for C9 at a concrete item and environment, exercising both
the already-satisfied branch and the write-and-loop branch. -/
theorem set_work_one_invocation_witness :
    witnessSetItem.work_func witnessCompTrue witnessEnvOk
      = (.ok .success, witnessEnvOk)
  ∧ witnessSetItem.work_func witnessCompFalse witnessEnvOk
      = (.ok .running,
          { witnessEnvOk with
            vals := caputVals witnessEnvOk.vals witnessSetItem.pv
              witnessSetItem.value
            slept := witnessEnvOk.slept ++
              [witnessSetItem.loop_period_sec] }) :=
  ⟨(set_work_one_invocation witnessSetItem witnessCompTrue witnessEnvOk
      "" rfl rfl).1 rfl,
   (set_work_one_invocation witnessSetItem witnessCompFalse witnessEnvOk
      "" rfl rfl).2 rfl⟩

/-- C10.  One invocation of the Increment-policy work routine on an
unreadable PV with a false completion condition returns FAILURE (the
`None + increment` `TypeError` is caught by the worker boundary), with
the environment untouched: an unreadable value is a work failure, not
treated as false or zero. -/
theorem inc_work_unreadable_fails (item : IncPVActionItem)
    (comp : PVals → Bool) (env : EpicsEnv)
    (hv : env.vals item.pv = none)
    (hc : comp env.vals = false) :
    item.work_func comp env = (.ok .failure, env) := by
  rw [IncPVActionItem.work_func, tryStatus, IncPVActionItem.work_body]
  simp [hv, hc]

/-- Witness for C10 at a concrete item and concrete unreadable
environment. -/
theorem inc_work_unreadable_fails_witness :
    witnessIncItem.work_func witnessCompFalse witnessEnvUnreadable
      = (.ok .failure, witnessEnvUnreadable) :=
  inc_work_unreadable_fails witnessIncItem witnessCompFalse
    witnessEnvUnreadable rfl rfl

/-- C6.  `stop_work` before any `start_work` (i.e. on the freshly
constructed worker) logs an error and has no effect: the state is
unchanged and no terminate/cleanup/join event happens.  `start_work`
while already working logs an error, changes nothing, and starts no
second process — so at most one live worker ever exists. -/
theorem worker_start_stop_misuse (b : Bool) (w : WorkerState)
    (hw : w.do_work = true) :
    Worker.stop_work (Worker.init b) = (Worker.init b, [.log_error])
  ∧ Worker.start_work w = (w, [.log_error]) := by
  constructor
  · rfl
  · rw [Worker.start_work, hw]
    simp

/-- Concrete already-working worker state used by witnesses. -/
def witnessWorkingState : WorkerState :=
  { do_work := true, proc_started := true, proc_alive := true,
    has_stop_func := true }

/-- Witness for C6 at a concrete worker state. -/
theorem worker_start_stop_misuse_witness :
    Worker.stop_work (Worker.init true) = (Worker.init true, [.log_error])
  ∧ Worker.start_work witnessWorkingState
      = (witnessWorkingState, [.log_error]) :=
  worker_start_stop_misuse true witnessWorkingState rfl

/-- C7.  On a started (working) worker, `stop_work` performs exactly, in
order: set the shared flag false, terminate the worker process, run the
cleanup callback if one was configured, then join — and returns with the
flag false and no live worker. -/
theorem worker_stop_sequence (w : WorkerState) (hw : w.do_work = true) :
    Worker.stop_work w =
      ({ w with do_work := false, proc_alive := false },
        [.set_flag false, .terminate_proc] ++
          (if w.has_stop_func then [.run_stop_func] else []) ++
          [.join_proc]) := by
  rw [Worker.stop_work, hw]
  simp

/-- Witness for C7 at a concrete started worker with a cleanup callback:
the four steps appear in order. -/
theorem worker_stop_sequence_witness :
    Worker.stop_work witnessWorkingState =
      ({ witnessWorkingState with do_work := false, proc_alive := false },
        [.set_flag false, .terminate_proc, .run_stop_func, .join_proc]) := by
  have h := worker_stop_sequence witnessWorkingState rfl
  simpa using h

/-- Reassigning `termination_check` on either action item leaves exactly
that field holding the new value. -/
lemma termination_check_withTerminationCheck (x : DoItem)
    (t : AnyConditionItem) :
    (x.withTerminationCheck t).termination_check = t := by
  cases x <;> rfl

/-- If the (re)assigned termination check has a condition function `f`,
the `ActionNode` built by `get_tree` carries `f` as its completion
condition. -/
lemma get_tree_completion (x : DoItem) (t : AnyConditionItem)
    (f : PVals → Bool) (hf : t.get_condition_function = some f) :
    Option.map ActionNode.completion_condition
      (x.withTerminationCheck t).get_tree = some f := by
  cases x <;> simp [DoItem.get_tree, DoItem.withTerminationCheck, hf]

/-- One `CheckAndDoItem.get_tree` call never changes an existing heap
entry: it at most allocates the private copy at a fresh reference. -/
lemma get_tree_heap_frame (item : CheckAndDoItem) (heap : List DoItem)
    (i : Nat) (hi : i < heap.length) :
    (item.get_tree heap).1[i]? = heap[i]? := by
  rw [CheckAndDoItem.get_tree]
  split
  · exact List.getElem?_append_left hi
  · rfl

/-- One `CheckAndDoItem.get_tree` call never shrinks the heap. -/
lemma get_tree_heap_length (item : CheckAndDoItem) (heap : List DoItem) :
    heap.length ≤ (item.get_tree heap).1.length := by
  rw [CheckAndDoItem.get_tree]
  split
  · simp
  · simp

/-- Any number of `get_tree` calls never changes an existing heap
entry. -/
lemma iterGetTree_frame (item : CheckAndDoItem) (n : Nat) :
    ∀ (heap : List DoItem) (i : Nat), i < heap.length →
      (item.iterGetTree n heap)[i]? = heap[i]? := by
  induction n with
  | zero => intro heap i hi; rfl
  | succ m ih =>
    intro heap i hi
    rw [CheckAndDoItem.iterGetTree]
    have h1 : i < (item.get_tree heap).1.length :=
      lt_of_lt_of_le hi (get_tree_heap_length item heap)
    rw [ih _ i h1, get_tree_heap_frame item heap i hi]

/-- C2 counterexample.  Constructing a `CheckAndDoItem` around a `do`
whose termination check is unconfigured (empty name) mutates the
caller's `do` object: its `termination_check` field is replaced (by the
`UseCheckConditionItem` sentinel in `__post_init__`), contradicting the
claim that construction never changes it. -/
theorem construct_mutates_do_termination_check :
    ((constructCheckAndDo "cad" "" (.condition {}) 0
        [DoItem.set {}]).2.getD 0 defaultDoItem).termination_check
      ≠ (DoItem.set {}).termination_check := by
  intro h
  have h1 : ((constructCheckAndDo "cad" "" (.condition {}) 0
      [DoItem.set {}]).2.getD 0 defaultDoItem).termination_check.isUseCheck
      = true := by decide
  have h2 : (DoItem.set {}).termination_check.isUseCheck = false := by
    decide
  rw [h] at h1
  rw [h1] at h2
  exact Bool.noConfusion h2

/-- C2 (amended).  The rebinding of the `do`'s termination check to the
sibling check happens, at assembly time, on a private copy: calling
`get_tree` any number of times never changes any pre-existing `do`
configuration object (heap entry) — in particular the caller's `do` and
its `termination_check` are unchanged by `get_tree`.  Construction,
however, does touch the caller's `do` when (and only when) its
termination check is unconfigured: with a non-empty termination-check
name, constructing the `CheckAndDoItem` leaves the heap entirely
unchanged. -/
theorem checkAndDo_do_not_mutated (item : CheckAndDoItem)
    (heap : List DoItem) (n i : Nat) (hi : i < heap.length) :
    (item.iterGetTree n heap)[i]? = heap[i]?
  ∧ (∀ (nm descr : String) (check : AnyConditionItem) (r : Nat),
      ¬ (heap.getD r defaultDoItem).termination_check.name = "" →
      (constructCheckAndDo nm descr check r heap).2 = heap) := by
  refine ⟨iterGetTree_frame item n heap i hi, ?_⟩
  intro nm descr check r hnm
  rw [List.getD_eq_getElem?_getD] at hnm
  rw [constructCheckAndDo]
  simp [hnm]

/-- Concrete `do` item with a configured (named) termination check. -/
def witnessNamedDo : DoItem :=
  .set { pv := "x", value := 5,
         termination_check := .condition { name := "t", pv := "x" } }

/-- Concrete `CheckAndDoItem` for the C2 witness. -/
def witnessCadItem : CheckAndDoItem :=
  { name := "cad", check := .condition { name := "chk", pv := "x" },
    doRef := 0 }

/-- Witness for the amended C2 at a concrete heap: two `get_tree` calls
leave the caller's entry unchanged, and construction around a `do` with a
named termination check leaves the heap unchanged. -/
theorem checkAndDo_do_not_mutated_witness :
    (witnessCadItem.iterGetTree 2 [witnessNamedDo])[0]?
      = [witnessNamedDo][0]?
  ∧ (constructCheckAndDo "cad" "" (.condition {}) 0 [witnessNamedDo]).2
      = [witnessNamedDo] :=
  ⟨(checkAndDo_do_not_mutated witnessCadItem [witnessNamedDo] 2 0
      (by decide)).1,
   (checkAndDo_do_not_mutated witnessCadItem [witnessNamedDo] 2 0
      (by decide)).2 "cad" "" (.condition {}) 0 (by decide)⟩

/-- Evaluating `get_tree` on an item whose `do` heap entry carries the
`UseCheckConditionItem` sentinel: allocate the private copy, rebind its
termination check to the item's check, and build the node from it. -/
lemma get_tree_of_sentinel (item : CheckAndDoItem) (heap : List DoItem)
    (d1 : DoItem)
    (hget : heap.getD item.doRef defaultDoItem = d1)
    (huse : d1.termination_check.isUseCheck = true) :
    item.get_tree heap =
      (heap ++ [d1.withTerminationCheck item.check],
        buildCheckAndDo item.name item.check
          (d1.withTerminationCheck item.check)) := by
  rw [CheckAndDoItem.get_tree, hget, huse]
  simp

/-- C1.  For a `CheckAndDoItem` whose `do` was constructed with an
unconfigured termination check (empty name): after construction
(`__post_init__` installs the sentinel) and tree assembly (`get_tree`
rebinds the private copy's termination check to `check`), the assembled
`do` node's effective completion condition produces, for every PV state,
exactly the result of `check`'s condition function. -/
theorem checkAndDo_unconfigured_uses_check
    (nm descr : String) (check : AnyConditionItem) (heap : List DoItem)
    (r : Nat) (d : DoItem) (f : PVals → Bool) (cn : CondTreeNode)
    (hr : heap[r]? = some d)
    (hname : d.termination_check.name = "")
    (hf : check.get_condition_function = some f)
    (hcn : check.get_tree = some cn) :
    ∃ node : CheckAndDo,
      ((constructCheckAndDo nm descr check r heap).1.get_tree
        (constructCheckAndDo nm descr check r heap).2).2 = some node
      ∧ ∀ vals, node.do_node.completion_condition vals = f vals := by
  have hlen : r < heap.length := by
    rcases List.getElem?_eq_some_iff.mp hr with ⟨hh, _⟩
    exact hh
  have hd : heap.getD r defaultDoItem = d := by
    rw [List.getD_eq_getElem?_getD, hr]; rfl
  have hpair : constructCheckAndDo nm descr check r heap =
      (⟨nm, descr, check, r⟩,
        heap.set r (d.withTerminationCheck (.useCheck {}))) := by
    rw [constructCheckAndDo, hd]
    simp [hname]
  rw [hpair]
  have hd1 : (heap.set r (d.withTerminationCheck (.useCheck {})))[r]?
      = some (d.withTerminationCheck (.useCheck {})) := by
    simp [List.getElem?_set_self, hlen]
  have hgd1 : (heap.set r (d.withTerminationCheck (.useCheck {}))).getD r
      defaultDoItem = d.withTerminationCheck (.useCheck {}) := by
    rw [List.getD_eq_getElem?_getD, hd1]; rfl
  have huse : (d.withTerminationCheck
      (.useCheck {})).termination_check.isUseCheck = true := by
    rw [termination_check_withTerminationCheck]
    rfl
  rw [get_tree_of_sentinel (⟨nm, descr, check, r⟩ : CheckAndDoItem) _ _
    hgd1 huse]
  have hmap : Option.map ActionNode.completion_condition
      ((d.withTerminationCheck (.useCheck {})).withTerminationCheck
        check).get_tree = some f :=
    get_tree_completion _ check f hf
  cases han : ((d.withTerminationCheck (.useCheck {})).withTerminationCheck
      check).get_tree with
  | none => rw [han] at hmap; simp at hmap
  | some an =>
    have hcomp : an.completion_condition = f := by
      rw [han] at hmap
      simpa using hmap
    refine ⟨⟨nm, cn, an⟩, ?_, fun vals => by rw [hcomp]⟩
    simp [buildCheckAndDo, hcn, han]

/-- Concrete check item for the C1 witness. -/
def witnessCheckLeaf : ConditionItem :=
  { name := "chk", pv := "a", value := 3 }

/-- Witness for C1: a concrete `CheckAndDoItem` built around a default
(unconfigured) Set action; the assembled do node's completion condition
agrees with the check's condition function on every PV state. -/
theorem checkAndDo_unconfigured_uses_check_witness :
    ∃ node : CheckAndDo,
      ((constructCheckAndDo "cad" "" (.condition witnessCheckLeaf) 0
          [DoItem.set {}]).1.get_tree
        (constructCheckAndDo "cad" "" (.condition witnessCheckLeaf) 0
          [DoItem.set {}]).2).2 = some node
      ∧ ∀ vals, node.do_node.completion_condition vals =
          witnessCheckLeaf.get_condition_function vals :=
  checkAndDo_unconfigured_uses_check "cad" "" (.condition witnessCheckLeaf)
    [DoItem.set {}] 0 (DoItem.set {})
    witnessCheckLeaf.get_condition_function
    (.conditionNode witnessCheckLeaf.name
      witnessCheckLeaf.get_condition_function)
    rfl rfl rfl rfl
